import Mathlib

/-!
Shallow embedding of the execution subsystem of the Futures-Day-Trader
repository (src/DayTradingProject/exec/live2.py, live3.py, paper.py and
test_maker_probe_v4.py).

Prices, quantities and equity amounts are modelled as rationals.  Every
Python helper that a claim depends on becomes a computable Lean function,
and the bodies of the polling loops become explicit state-transition
functions; exchange responses are supplied as oracle arguments.
-/

namespace FDT

/-- Position side, the strings "long" / "short" in live3.py. -/
inductive Side
  | long
  | short
deriving DecidableEq

/-- Exit reason, the strings "TP" / "SL" written to the trade logs. -/
inductive ExitReason
  | TP
  | SL
deriving DecidableEq

/-- live2.py line 161: the daily halt guard of the live engine,
start_equity > 0 and (cur_equity - start_equity) / start_equity <= -DAILY_LOSS_LIMIT. -/
def check_daily_halt (cur start limit : ℚ) : Bool :=
  decide (0 < start) && decide ((cur - start) / start ≤ -limit)

/-- paper.py line 95: the daily halt guard of the paper engine,
(equity - start_equity_today) / max(start_equity_today, 1e-9) <= -daily_loss_limit. -/
def paper_halt_check (equity start limit : ℚ) : Bool :=
  decide ((equity - start) / max start (1 / 1000000000) ≤ -limit)

/-- live2.py line 213: the fee-edge gate; the entry is accepted unless
gross_tp <= est_fees * FEE_EDGE_BUFFER. -/
def check_fee_edge (gross fees buffer : ℚ) : Bool :=
  !decide (gross ≤ fees * buffer)

/-- live2.py lines 208-211: the round-trip fee estimate.  The entry leg uses the
maker rate iff USE_MAKER, the exit leg uses the maker rate iff
USE_MAKER and MAKER_TP_POST; est_fees = (entry_fee_rate + exit_fee_rate) * spend_quote. -/
def round_trip_fee_estimate (use_maker maker_tp_post : Bool) (makerRate takerRate spend : ℚ) : ℚ :=
  let entryRate := if use_maker then makerRate else takerRate
  let exitRate := if use_maker && maker_tp_post then makerRate else takerRate
  (entryRate + exitRate) * spend

/-- Python's int() conversion on a rational value: truncation toward zero. -/
def pyint (x : ℚ) : ℤ :=
  if 0 ≤ x then ⌊x⌋ else ⌈x⌉

/-- live2.py lines 95-100: floor_qty_to_precision.  With a defined amount
precision (a count of decimal places), step = 10 ** (-prec) and the result is
(int(q / step)) * step; with no precision the quantity is returned unchanged. -/
def floor_qty_to_precision (prec : Option ℕ) (q : ℚ) : ℚ :=
  match prec with
  | none => q
  | some n =>
    let step : ℚ := ((10 : ℚ) ^ n)⁻¹
    ((pyint (q / step) : ℤ) : ℚ) * step

/-- live3.py lines 73-77: round_price (round_amt at lines 67-71 is identical in
shape).  With a defined price precision, step = 10 ** (-prec_price) and the
result is floor(p * step) / step; with no precision the price is unchanged. -/
def round_price (prec : Option ℕ) (p : ℚ) : ℚ :=
  match prec with
  | none => p
  | some n =>
    let step : ℚ := ((10 : ℚ) ^ n)⁻¹
    ((⌊p * step⌋ : ℤ) : ℚ) / step

/-- live3.py line 219: has the take-profit price been hit (with tolerance)? -/
def hit_tp_check (side : Side) (bid ask tp tpTol : ℚ) : Bool :=
  match side with
  | Side.long => decide (ask ≥ tp * (1 - tpTol))
  | Side.short => decide (bid ≤ tp * (1 + tpTol))

/-- live3.py line 220: has the stop-loss price been hit (with tolerance)? -/
def hit_sl_check (side : Side) (bid ask sl slTol : ℚ) : Bool :=
  match side with
  | Side.long => decide (bid ≤ sl * (1 + slTol))
  | Side.short => decide (ask ≥ sl * (1 - slTol))

/-- live3.py lines 222-224: the exit decision.  do_exit is set to TP when
hit_tp holds and then overwritten with SL when hit_sl holds, so SL dominates
when both trigger on the same poll. -/
def exit_decision (side : Side) (bid ask tp sl tpTol slTol : ℚ) : Option ExitReason :=
  let d1 : Option ExitReason := if hit_tp_check side bid ask tp tpTol then some ExitReason.TP else none
  if hit_sl_check side bid ask sl slTol then some ExitReason.SL else d1

/-- live3.py lines 196-200 (and identically lines 156-160): one step of the
fill-accumulation loop over fetched trades.  The accumulator is the pair
(filled, vwap), the trade is the pair (amount, price); there is no
de-duplication by trade id. -/
def vwap_fill_step (acc : ℚ × ℚ) (tr : ℚ × ℚ) : ℚ × ℚ :=
  let vwap2 := if 0 < acc.1 then (acc.2 * acc.1 + tr.2 * tr.1) / (acc.1 + tr.1) else tr.2
  (acc.1 + tr.1, vwap2)

/-- The open-position fields of live3.py: pos_side, entry_px, tp_px, sl_px.
A position is open iff these are set (pos = some p, in_pos = True). -/
structure Live3Pos where
  side : Side
  entry_px : ℚ
  tp_px : ℚ
  sl_px : ℚ
deriving DecidableEq

/-- A row of the live3.py trade CSV (lines 260-263): side, entry, tp, sl,
amount, exit, pnl, equity after, reason. -/
structure Live3Row where
  side : Side
  entry_px : ℚ
  tp_px : ℚ
  sl_px : ℚ
  amt : ℚ
  exit_px : ℚ
  pnl : ℚ
  equityAfter : ℚ
  reason : ExitReason
deriving DecidableEq

/-- The mutable state of live3.py's run loop that the exit section touches. -/
structure Live3State where
  pos : Option Live3Pos
  amount : ℚ
  equity : ℚ
  trades : List Live3Row
deriving DecidableEq

/-- Orders issued by live3.py's exit section; ok records whether the exchange
call succeeded (False = the call raised and the exception was swallowed). -/
inductive Live3OrderEv
  | makerReduceOnly (sell : Bool) (amt px : ℚ) (ok : Bool)
  | marketOrder (sell : Bool) (amt : ℚ) (ok : Bool)
deriving DecidableEq

/-- Configuration of live3.py relevant to the exit section: TP_TOL_BPS,
SL_TOL_BPS (already divided by 1e4), MAKER_FEE_RATE, PRICE_IMPROVE_PCT and the
price precision. -/
structure Live3Cfg where
  tpTol : ℚ
  slTol : ℚ
  makerFee : ℚ
  improvePct : ℚ
  precPrice : Option ℕ
deriving DecidableEq

/-- The book reads a live3.py exit pass performs: bid/ask from the top of the
cycle, bb/aa from the re-read before the market fallback, bb2/aa2 from the
re-read used to proxy the exit price. -/
structure ExitQuotes where
  bid : ℚ
  ask : ℚ
  bb : ℚ
  aa : ℚ
  bb2 : ℚ
  aa2 : ℚ
deriving DecidableEq

/-- live3.py lines 214-270: the exit section of one poll cycle.  makerOk and
marketOk say whether the reduce-only maker order and the market fallback
succeed; both calls sit inside try/except-pass in the source, so the PnL
computation, the CSV append and the state reset run unconditionally once an
exit was decided. -/
def live3_exit_step (cfg : Live3Cfg) (s : Live3State) (q : ExitQuotes) (makerOk marketOk : Bool) :
    Live3State × List Live3OrderEv :=
  match s.pos with
  | none => (s, [])
  | some p =>
    match exit_decision p.side q.bid q.ask p.tp_px p.sl_px cfg.tpTol cfg.slTol with
    | none => (s, [])
    | some reason =>
      let sell : Bool := decide (p.side = Side.long)
      let ref := if sell then q.ask else q.bid
      let px_try := round_price cfg.precPrice
        (ref * (if sell then 1 + cfg.improvePct else 1 - cfg.improvePct))
      let ev1 := [Live3OrderEv.makerReduceOnly sell s.amount px_try makerOk]
      let beyond_tp :=
        match p.side with
        | Side.long => decide (q.aa ≥ p.tp_px * (1 + cfg.tpTol))
        | Side.short => decide (q.bb ≤ p.tp_px * (1 - cfg.tpTol))
      let beyond_sl :=
        match p.side with
        | Side.long => decide (q.bb ≤ p.sl_px * (1 - cfg.slTol))
        | Side.short => decide (q.aa ≥ p.sl_px * (1 + cfg.slTol))
      let ev2 := if beyond_tp || beyond_sl then [Live3OrderEv.marketOrder sell s.amount marketOk] else []
      let exit_px := if sell then q.aa2 else q.bb2
      let notional_entry := p.entry_px * s.amount
      let notional_exit := exit_px * s.amount
      let gross := if sell then notional_exit - notional_entry else notional_entry - notional_exit
      let fees := cfg.makerFee * (notional_entry + notional_exit)
      let pnl := gross - fees
      let row : Live3Row :=
        ⟨p.side, p.entry_px, p.tp_px, p.sl_px, s.amount, exit_px, pnl, s.equity + pnl, reason⟩
      ({ pos := none, amount := 0, equity := s.equity + pnl, trades := s.trades ++ [row] },
        ev1 ++ ev2)

/-- The market constraints test_maker_probe_v4.py works with (load_market_info):
the price step and the optional minimum price. -/
structure MarketInfo where
  price_step : ℚ
  min_price : Option ℚ
deriving DecidableEq

/-- test_maker_probe_v4.py lines 47-48: step_floor(x, step) =
floor(x / step) * step when step is truthy and positive, else x. -/
def step_floor (x step : ℚ) : ℚ :=
  if 0 < step then ((⌊x / step⌋ : ℤ) : ℚ) * step else x

/-- Python's (value or default) on an optional number: the value unless it is
missing or equal to 0 (falsy), else the default. -/
def py_or_default (o : Option ℚ) (d : ℚ) : ℚ :=
  match o with
  | none => d
  | some m => if m = 0 then d else m

/-- test_maker_probe_v4.py lines 55-56: the minimum-price clamp of
safe_round_price; the clamp applies when min_price is truthy (present and
nonzero) and the price is below it. -/
def clamp_min (px : ℚ) (mp : Option ℚ) : ℚ :=
  match mp with
  | none => px
  | some m => if m ≠ 0 ∧ px < m then m else px

/-- test_maker_probe_v4.py lines 53-60: safe_round_price.  It floors to the
price step, clamps to the minimum price, and when the result is still ≤ 0 it
substitutes max(min_price or 1e-12, 1e-12); it never raises. -/
def safe_round_price (p : ℚ) (mi : MarketInfo) : ℚ :=
  let px2 := clamp_min (step_floor p mi.price_step) mi.min_price
  if px2 ≤ 0 then max (py_or_default mi.min_price (1 / 1000000000000)) (1 / 1000000000000)
  else px2

/-- Modelled from the spec (section 4.3): round_price(price, constraints)
floors to tick size, clamps to minimum price if defined, and fails with
InvalidPriceError if the result is ≤ 0.  No function in src/ raises such an
error; this definition follows the spec's words and exists only to be compared
with safe_round_price. -/
def round_price_per_spec (p : ℚ) (mi : MarketInfo) : Except Unit ℚ :=
  let px1 := step_floor p mi.price_step
  let px2 :=
    match mi.min_price with
    | none => px1
    | some m => if px1 < m then m else px1
  if px2 ≤ 0 then Except.error () else Except.ok px2

/-- Side of a fetched trade in test_maker_probe_v4.py. -/
inductive TradeSide
  | buy
  | sell
deriving DecidableEq

/-- A trade record returned by fetch_my_trades, as read by
test_maker_probe_v4.py lines 182-193: its unique id, side, whether its symbol
matches, and its price/amount/cost fields. -/
structure ProbeTrade where
  tid : ℕ
  side : TradeSide
  symbol_ok : Bool
  price : ℚ
  amount : ℚ
  cost : ℚ
deriving DecidableEq

/-- An entry of the filled list built by test_maker_probe_v4.py lines 187-193. -/
structure ProbeFillRec where
  trade_id : ℕ
  price : ℚ
  amount : ℚ
  cost : ℚ
deriving DecidableEq

/-- test_maker_probe_v4.py lines 182-193: processing of one fetched trade.
The state is (seen_ids, filled); a trade whose id was already seen is skipped,
otherwise its id is recorded and, when it is a buy on the probed symbol, a fill
record is appended. -/
def collect_trade (st : List ℕ × List ProbeFillRec) (tr : ProbeTrade) :
    List ℕ × List ProbeFillRec :=
  if tr.tid ∈ st.1 then st
  else
    let seen2 := tr.tid :: st.1
    if tr.side = TradeSide.buy ∧ tr.symbol_ok = true then
      (seen2, st.2 ++ [⟨tr.tid, tr.price, tr.amount, tr.cost⟩])
    else (seen2, st.2)

/-- Exchange response to one post-only placement attempt: accepted with an
order id, rejected because the order would execute as taker, or any other
error. -/
inductive MakerResp
  | ok (oid : ℕ)
  | postOnlyReject
  | otherErr
deriving DecidableEq

/-- Orders issued by the probe's buy placement: post-only maker buys and (never
issued by this code path) taker buys. -/
inductive ProbeOrderEv
  | makerBuy (amt px : ℚ)
  | takerBuy (amt : ℚ)
deriving DecidableEq

/-- test_maker_probe_v4.py lines 79-93: the placement/retry loop of
place_or_adjust_buy.  resp n is the exchange's response to the n-th placement
attempt; on a would-be-taker rejection with retries left the price is stepped
down one tick (through safe_round_price) and the order re-placed, otherwise
the exception propagates (Except.error).  The returned list is the trace of
orders submitted. -/
def maker_buy_loop (resp : ℕ → MakerResp) (mi : MarketInfo) (amt : ℚ) :
    ℕ → ℕ → ℚ → List ProbeOrderEv × Except Unit ℕ
  | retries, attempt, px =>
    match resp attempt with
    | MakerResp.ok oid => ([ProbeOrderEv.makerBuy amt px], Except.ok oid)
    | MakerResp.otherErr => ([ProbeOrderEv.makerBuy amt px], Except.error ())
    | MakerResp.postOnlyReject =>
      match retries with
      | 0 => ([ProbeOrderEv.makerBuy amt px], Except.error ())
      | r + 1 =>
        let px2 := safe_round_price (px - mi.price_step) mi
        let rest := maker_buy_loop resp mi amt r (attempt + 1) px2
        (ProbeOrderEv.makerBuy amt px :: rest.1, rest.2)

/-- test_maker_probe_v4.py lines 75-93: place_or_adjust_buy with chase_sec = 0
(the chase loop body never runs, and it is unreachable anyway when retries are
exhausted, because the exception propagates first).  The initial price is
safe_round_price(desired_px) and the retry budget is 3. -/
def place_or_adjust_buy (resp : ℕ → MakerResp) (mi : MarketInfo) (amt desired_px : ℚ) :
    List ProbeOrderEv × Except Unit ℕ :=
  maker_buy_loop resp mi amt 3 0 (safe_round_price desired_px mi)

/-- A row of paper.py's trade CSV (log_trade, lines 73-79): entry, exit, pnl,
equity after the update, and the exit reason. -/
structure PaperTradeRow where
  entry_px : ℚ
  exit_px : ℚ
  pnl : ℚ
  equityAfter : ℚ
  reason : ExitReason
deriving DecidableEq

/-- The mutable state of paper.py's main loop. -/
structure PaperState where
  equity : ℚ
  start_equity_today : ℚ
  consec_losses : ℕ
  in_pos : Bool
  entry : ℚ
  sl : ℚ
  tp : ℚ
  qty : ℚ
  trades : List PaperTradeRow
deriving DecidableEq

/-- Observable events of one paper.py cycle: a position was opened, or closed
by stop-loss / take-profit. -/
inductive PaperEvent
  | entered
  | exitSL
  | exitTP
deriving DecidableEq

/-- The per-cycle inputs of paper.py: whether the UTC date changed, the signal,
the spread/depth quality filters, the last close price and the ATR value. -/
structure PaperInput where
  dayChanged : Bool
  long_signal : Bool
  ok_spread : Bool
  ok_depth : Bool
  price : ℚ
  atr : ℚ
deriving DecidableEq

/-- paper.py lines 89-92: at a UTC day change the daily baseline is reset to
the current equity and the consecutive-loss counter to 0. -/
def paper_day_reset (s : PaperState) (i : PaperInput) : PaperState :=
  if i.dayChanged then { s with start_equity_today := s.equity, consec_losses := 0 } else s

/-- paper.py lines 114-125: the entry block.  A position is opened when flat,
the consecutive-loss counter is below max_consec_losses = 3, the spread and
depth filters pass, the long signal fires and ATR is positive; sizing uses
risk_per_trade = 0.01 of equity over max(price - sl, 1e-9). -/
def paper_entry_step (s : PaperState) (i : PaperInput) : PaperState × List PaperEvent :=
  if s.in_pos = false ∧ s.consec_losses < 3 ∧ i.ok_spread = true ∧ i.ok_depth = true
      ∧ i.long_signal = true ∧ 0 < i.atr then
    let sl := i.price - i.atr
    let tp := i.price + 3 / 2 * i.atr
    let risk_per_unit := max (i.price - sl) (1 / 1000000000)
    let qty := s.equity * (1 / 100) / risk_per_unit
    ({ s with in_pos := true, entry := i.price, sl := sl, tp := tp, qty := qty },
      [PaperEvent.entered])
  else (s, [])

/-- paper.py lines 127-141: the exit block.  On price ≤ sl the position is
closed at sl, the pnl realized, the consecutive-loss counter incremented and
the trade logged; on price ≥ tp it is closed at tp and the counter reset. -/
def paper_exit_step (s : PaperState) (i : PaperInput) : PaperState × List PaperEvent :=
  if s.in_pos = true then
    if i.price ≤ s.sl then
      let pnl := (s.sl - s.entry) * s.qty
      ({ s with equity := s.equity + pnl, in_pos := false,
                consec_losses := s.consec_losses + 1,
                trades := s.trades ++ [⟨s.entry, s.sl, pnl, s.equity + pnl, ExitReason.SL⟩] },
        [PaperEvent.exitSL])
    else if i.price ≥ s.tp then
      let pnl := (s.tp - s.entry) * s.qty
      ({ s with equity := s.equity + pnl, in_pos := false, consec_losses := 0,
                trades := s.trades ++ [⟨s.entry, s.tp, pnl, s.equity + pnl, ExitReason.TP⟩] },
        [PaperEvent.exitTP])
    else (s, [])
  else (s, [])

/-- paper.py lines 86-143: one iteration of the main loop.  The day reset runs
first; when the daily halt fires the cycle continues immediately (skipping the
entry block and the exit block); otherwise the entry block and then the exit
block run, the latter on the state the entry block produced. -/
def paper_cycle (s0 : PaperState) (i : PaperInput) : PaperState × List PaperEvent :=
  let s := paper_day_reset s0 i
  if paper_halt_check s.equity s.start_equity_today (3 / 100) then (s, [])
  else
    let a := paper_entry_step s i
    let b := paper_exit_step a.1 i
    (b.1, a.2 ++ b.2)

/-- Iterated paper.py cycles over a list of per-cycle inputs, collecting all
events. -/
def paper_run (s : PaperState) : List PaperInput → PaperState × List PaperEvent
  | [] => (s, [])
  | i :: rest =>
    let c := paper_cycle s i
    let r := paper_run c.1 rest
    (r.1, c.2 ++ r.2)

/-- A halted paper.py state with an open position whose stop-loss level is
above the current price: day-start equity 1000, current equity 970 (a drop of
exactly the 3 percent daily loss limit). -/
def c1State : PaperState :=
  { equity := 970, start_equity_today := 1000, consec_losses := 0, in_pos := true,
    entry := 5, sl := 5, tp := 8, qty := 1, trades := [] }

/-- A cycle input for c1State: no day change, price 4 at or below the stop. -/
def c1Input : PaperInput :=
  { dayChanged := false, long_signal := false, ok_spread := true, ok_depth := true,
    price := 4, atr := 1 }

/-- Day-start equity 1e-10, below paper.py's 1e-9 divisor floor. -/
def c5start : ℚ := 1 / 10000000000

/-- Current equity after a drop of exactly the 3 percent daily loss limit from
c5start. -/
def c5cur : ℚ := c5start * (1 - 3 / 100)

/-- An exchange oracle that rejects every post-only placement as would-be
taker. -/
def c8resp : ℕ → MakerResp := fun _ => MakerResp.postOnlyReject

/-- Market constraints with tick size 1 and minimum price 10, under which the
one-tick-down retry price gets clamped back up to the minimum price. -/
def c8mi : MarketInfo := ⟨1, some 10⟩

/-- Configuration for a concrete live3.py exit scenario: zero tolerances, zero
maker fee, zero price improvement, undefined price precision. -/
def c9cfg : Live3Cfg := ⟨0, 0, 0, 0, none⟩

/-- A long position entered at 100 with TP 105 and SL 90. -/
def c9pos : Live3Pos := ⟨Side.long, 100, 105, 90⟩

/-- A live3.py state holding c9pos with amount 2 and equity 1000. -/
def c9state : Live3State := ⟨some c9pos, 2, 1000, []⟩

/-- Quotes with bid 80 (through the stop-loss) on every read. -/
def c9quotes : ExitQuotes := ⟨80, 120, 80, 120, 80, 110⟩

/-- A flat paper.py state whose consecutive-loss counter has reached 3. -/
def c10State : PaperState :=
  { equity := 1000, start_equity_today := 1000, consec_losses := 3, in_pos := false,
    entry := 0, sl := 0, tp := 0, qty := 0, trades := [] }

/-- A same-day cycle input with a firing long signal and passing filters. -/
def c10Input : PaperInput :=
  { dayChanged := false, long_signal := true, ok_spread := true, ok_depth := true,
    price := 100, atr := 1 }

/-- A cycle input marking a UTC day change. -/
def c10DayInput : PaperInput :=
  { dayChanged := true, long_signal := false, ok_spread := false, ok_depth := false,
    price := 100, atr := 1 }

end FDT


namespace FDT

/-- Helper for C1: with the daily halt condition holding and no day change, a
paper.py cycle returns its state unchanged and emits no events, because the
halt branch continues the loop before the entry and exit blocks. -/
theorem paper_cycle_halted (s : PaperState) (i : PaperInput)
    (hday : i.dayChanged = false)
    (hhalt : paper_halt_check s.equity s.start_equity_today (3 / 100) = true) :
    paper_cycle s i = (s, []) := by
  have hres : paper_day_reset s i = s := by simp [paper_day_reset, hday]
  simp [paper_cycle, hres, hhalt]

/-- C1 (amended): after the daily-loss halt triggers, every subsequent poll
cycle up to the next UTC day change leaves the paper engine state completely
unchanged and emits no events.  New entries are indeed rejected for the rest of
the UTC day, but exit evaluation and exit order placement are skipped as well:
the halt branch continues the loop before the exit block, so an open position
is NOT managed during the halt. -/
theorem C1_halt_freezes_cycles (s : PaperState) (inputs : List PaperInput)
    (hhalt : paper_halt_check s.equity s.start_equity_today (3 / 100) = true)
    (hday : ∀ i ∈ inputs, i.dayChanged = false) :
    paper_run s inputs = (s, []) := by
  induction inputs with
  | nil => rfl
  | cons i rest ih =>
    have h1 : paper_cycle s i = (s, []) :=
      paper_cycle_halted s i (hday i (List.mem_cons_self i rest)) hhalt
    have h2 : paper_run s rest = (s, []) :=
      ih (fun j hj => hday j (List.mem_cons_of_mem i hj))
    simp [paper_run, h1, h2]

/-- C1 (counterexample): in the halted state c1State the open position's
stop-loss condition holds (price 4 ≤ sl 5), yet the cycle performs no exit:
the position stays open and no event is emitted, contradicting the claim that
exit evaluation and exit order placement still run during the halt. -/
theorem C1_counterexample :
    (paper_cycle c1State c1Input).1.in_pos = true ∧ (paper_cycle c1State c1Input).2 = []
      ∧ c1Input.price ≤ c1State.sl := by
  norm_num [paper_cycle, paper_day_reset, paper_halt_check, paper_entry_step, paper_exit_step,
    c1State, c1Input, max_def]

/-- C1 (witness): the amended theorem applied to the concrete halted state
c1State and the single no-day-change input c1Input. -/
theorem C1_witness : paper_run c1State [c1Input] = (c1State, []) :=
  C1_halt_freezes_cycles c1State [c1Input]
    (by norm_num [paper_halt_check, c1State, max_def])
    (by intro i hi; rw [List.mem_singleton] at hi; rw [hi]; rfl)

/-- C2 (counterexample): live3.py's fill aggregation step applies a fill record
unconditionally — there is no de-duplication by trade id — so processing the
identical record (amount 1, price 2) a second time changes the accumulated
quantity again, from 1 to 2. -/
theorem C2_counterexample :
    (vwap_fill_step (0, 0) (1, 2)).1 = 1
      ∧ (vwap_fill_step (vwap_fill_step (0, 0) (1, 2)) (1, 2)).1 = 2 := by
  norm_num [vwap_fill_step]

/-- C2 (amended): the maker-probe fill collector de-duplicates by trade id
(seen_ids), so processing the identical trade record a second time leaves the
whole collection state — and hence the derived filled quantity and VWAP —
unchanged; live3.py's own staging aggregation (vwap_fill_step) has no such
de-duplication and is not idempotent. -/
theorem C2_collect_trade_idempotent (st : List ℕ × List ProbeFillRec) (tr : ProbeTrade) :
    collect_trade (collect_trade st tr) tr = collect_trade st tr := by
  by_cases h : tr.tid ∈ st.1
  · simp [collect_trade, h]
  · by_cases hs : tr.side = TradeSide.buy ∧ tr.symbol_ok = true
    · simp [collect_trade, h, hs]
    · simp [collect_trade, h, hs]

/-- C3: for a long position, whenever the take-profit condition
(ask ≥ tp·(1 − tpTol)) and the stop-loss condition (bid ≤ sl·(1 + slTol)) hold
in the same evaluation, the exit decision is StopLoss — the later
hit_sl assignment overwrites the hit_tp one. -/
theorem C3_sl_dominates_tp (bid ask tp sl tpTol slTol : ℚ)
    (htp : ask ≥ tp * (1 - tpTol)) (hsl : bid ≤ sl * (1 + slTol)) :
    exit_decision Side.long bid ask tp sl tpTol slTol = some ExitReason.SL := by
  simp [exit_decision, hit_sl_check, hsl]

/-- C3 (witness): with tp 100, sl 90 and zero tolerances, ask 105 triggers TP
and bid 80 triggers SL simultaneously; the decision is StopLoss. -/
theorem C3_witness : exit_decision Side.long 80 105 100 90 0 0 = some ExitReason.SL :=
  C3_sl_dominates_tp 80 105 100 90 0 0 (by norm_num) (by norm_num)

/-- C4: the fee-edge gate accepts exactly when expected gross profit exceeds
fee estimate times buffer; 10 against 9·1.2 = 10.8 is rejected and 15 is
accepted; and the round-trip fee estimate picks the maker rate for maker
entry/exit roles and the taker rate otherwise. -/
theorem C4_fee_edge_gate :
    (∀ g f b : ℚ, check_fee_edge g f b = true ↔ f * b < g)
      ∧ check_fee_edge 10 9 (6 / 5) = false
      ∧ check_fee_edge 15 9 (6 / 5) = true
      ∧ (∀ mr tk sp : ℚ,
          round_trip_fee_estimate true true mr tk sp = (mr + mr) * sp
            ∧ round_trip_fee_estimate true false mr tk sp = (mr + tk) * sp
            ∧ round_trip_fee_estimate false true mr tk sp = (tk + tk) * sp
            ∧ round_trip_fee_estimate false false mr tk sp = (tk + tk) * sp) := by
  refine ⟨fun g f b => ?_, by norm_num [check_fee_edge], by norm_num [check_fee_edge],
    fun mr tk sp => by simp [round_trip_fee_estimate]⟩
  simp [check_fee_edge, not_le]

/-- C5 (amended): live2.py's halt check fires exactly at the threshold for
every positive day-start equity — it holds iff the relative drop is at most
−limit, a drop of exactly −limit fires it and any strictly smaller drop does
not — and paper.py's halt check agrees with that equivalence whenever the
day-start equity is at least 1e-9 (its divisor is max(start, 1e-9)). -/
theorem C5_daily_halt_threshold (E0 E limit : ℚ) (h : 0 < E0) :
    (check_daily_halt E E0 limit = true ↔ (E - E0) / E0 ≤ -limit)
      ∧ check_daily_halt (E0 * (1 - limit)) E0 limit = true
      ∧ (∀ ε : ℚ, 0 < ε → check_daily_halt (E0 * (1 - limit + ε)) E0 limit = false)
      ∧ (1 / 1000000000 ≤ E0 →
          (paper_halt_check E E0 limit = true ↔ (E - E0) / E0 ≤ -limit)) := by
  have hne : E0 ≠ 0 := ne_of_gt h
  refine ⟨?_, ?_, ?_, ?_⟩
  · simp [check_daily_halt, h]
  · have hc : (E0 * (1 - limit) - E0) / E0 = -limit := by
      rw [div_eq_iff hne]; ring
    simp [check_daily_halt, h, hc]
  · intro ε hε
    have hc : (E0 * (1 - limit + ε) - E0) / E0 = ε - limit := by
      rw [div_eq_iff hne]; ring
    simp [check_daily_halt, h, hc]
    linarith
  · intro h9
    have hmax : max E0 (1 / 1000000000) = E0 := max_eq_left h9
    simp only [paper_halt_check, hmax, decide_eq_true_eq]

/-- C5 (counterexample): for day-start equity 1e-10 (positive but below
paper.py's 1e-9 divisor floor) and a drop of exactly the 3 percent daily loss
limit, the relative drop reaches the threshold, yet paper.py's halt check does
not fire, because it divides by max(start, 1e-9) = 1e-9 instead of start. -/
theorem C5_counterexample :
    ((c5cur - c5start) / c5start ≤ -(3 / 100 : ℚ))
      ∧ paper_halt_check c5cur c5start (3 / 100) = false := by
  norm_num [paper_halt_check, c5cur, c5start, max_def]

/-- C5 (witness): the amended theorem at day-start equity 1000 with limit 3
percent: a drop to exactly 970 halts, a drop to 980 does not. -/
theorem C5_witness :
    check_daily_halt (1000 * (1 - 3 / 100)) 1000 (3 / 100) = true
      ∧ check_daily_halt (1000 * (1 - 3 / 100 + 1 / 100)) 1000 (3 / 100) = false := by
  have h := C5_daily_halt_threshold 1000 970 (3 / 100) (by norm_num)
  exact ⟨h.2.1, h.2.2.1 (1 / 100) (by norm_num)⟩

/-- C6: for every price and every defined precision, live3.py's round_price is
at most the input and is an integer multiple of the quantization step
10^(−prec), and live2.py's floor_qty_to_precision satisfies the same floor
property for every nonnegative quantity. -/
theorem C6_rounding_floor (prec : ℕ) (p q : ℚ) (hq : 0 ≤ q) :
    round_price (some prec) p ≤ p
      ∧ (∃ k : ℤ, round_price (some prec) p = (k : ℚ) * ((10 : ℚ) ^ prec)⁻¹)
      ∧ floor_qty_to_precision (some prec) q ≤ q
      ∧ (∃ k : ℤ, floor_qty_to_precision (some prec) q = (k : ℚ) * ((10 : ℚ) ^ prec)⁻¹) := by
  have h10 : (0 : ℚ) < (10 : ℚ) ^ prec := pow_pos (by norm_num) _
  have hs : (0 : ℚ) < ((10 : ℚ) ^ prec)⁻¹ := inv_pos.mpr h10
  have hne : ((10 : ℚ) ^ prec) ≠ 0 := ne_of_gt h10
  have hqs : 0 ≤ q / ((10 : ℚ) ^ prec)⁻¹ := div_nonneg hq (le_of_lt hs)
  refine ⟨?_, ?_, ?_, ?_⟩
  · show ((⌊p * ((10 : ℚ) ^ prec)⁻¹⌋ : ℤ) : ℚ) / ((10 : ℚ) ^ prec)⁻¹ ≤ p
    rw [div_le_iff₀ hs]
    exact Int.floor_le _
  · refine ⟨⌊p * ((10 : ℚ) ^ prec)⁻¹⌋ * 10 ^ (2 * prec), ?_⟩
    show ((⌊p * ((10 : ℚ) ^ prec)⁻¹⌋ : ℤ) : ℚ) / ((10 : ℚ) ^ prec)⁻¹ = _
    push_cast
    field_simp
    ring
  · show ((pyint (q / ((10 : ℚ) ^ prec)⁻¹) : ℤ) : ℚ) * ((10 : ℚ) ^ prec)⁻¹ ≤ q
    rw [pyint, if_pos hqs]
    have h1 : ((⌊q / ((10 : ℚ) ^ prec)⁻¹⌋ : ℤ) : ℚ) ≤ q / ((10 : ℚ) ^ prec)⁻¹ := Int.floor_le _
    calc ((⌊q / ((10 : ℚ) ^ prec)⁻¹⌋ : ℤ) : ℚ) * ((10 : ℚ) ^ prec)⁻¹
        ≤ q / ((10 : ℚ) ^ prec)⁻¹ * ((10 : ℚ) ^ prec)⁻¹ :=
          mul_le_mul_of_nonneg_right h1 (le_of_lt hs)
      _ = q := div_mul_cancel₀ q (ne_of_gt hs)
  · exact ⟨pyint (q / ((10 : ℚ) ^ prec)⁻¹), rfl⟩

/-- C6 (witness): the floor property at precision 2 for price 7/3 and quantity
5/2. -/
theorem C6_witness :
    round_price (some 2) (7 / 3) ≤ 7 / 3 ∧ floor_qty_to_precision (some 2) (5 / 2) ≤ 5 / 2 :=
  ⟨(C6_rounding_floor 2 (7 / 3) (5 / 2) (by norm_num)).1,
   (C6_rounding_floor 2 (7 / 3) (5 / 2) (by norm_num)).2.2.1⟩

/-- C7 (counterexample): where the spec's round_price fails with
InvalidPriceError (floored price 0 ≤ 0), the probe's safe_round_price instead
returns the positive fallback 1e-12; and live3.py's round_price, with
precision 0, happily returns the non-positive price 0.  No InvalidPriceError
exists anywhere in the source. -/
theorem C7_counterexample :
    safe_round_price (1 / 2) ⟨1, none⟩ = 1 / 1000000000000
      ∧ round_price_per_spec (1 / 2) ⟨1, none⟩ = Except.error ()
      ∧ round_price (some 0) (1 / 2) = 0 := by
  refine ⟨?_, ?_, ?_⟩
  · norm_num [safe_round_price, clamp_min, step_floor, py_or_default, max_def]
  · norm_num [round_price_per_spec, step_floor]
  · norm_num [round_price]

/-- C7 (amended): the probe's safe_round_price always returns a strictly
positive price — when the floored and clamped result would be ≤ 0 it
substitutes max(min_price or 1e-12, 1e-12) instead of raising an error — and
otherwise it floors to the price step (when no minimum price is defined and the
floored price is positive) and clamps up to a defined positive minimum price. -/
theorem C7_safe_round_price_behavior :
    (∀ (p : ℚ) (mi : MarketInfo), 0 < safe_round_price p mi)
      ∧ (∀ (p : ℚ) (mi : MarketInfo), mi.min_price = none → 0 < step_floor p mi.price_step →
          safe_round_price p mi = step_floor p mi.price_step)
      ∧ (∀ (p : ℚ) (mi : MarketInfo) (m : ℚ), mi.min_price = some m → 0 < m →
          step_floor p mi.price_step < m → safe_round_price p mi = m) := by
  refine ⟨?_, ?_, ?_⟩
  · intro p mi
    rw [safe_round_price]
    by_cases hx : clamp_min (step_floor p mi.price_step) mi.min_price ≤ 0
    · rw [if_pos hx]
      exact lt_max_of_lt_right (by norm_num)
    · rw [if_neg hx]
      exact lt_of_not_le hx
  · intro p mi hmin hpos
    rw [safe_round_price, hmin]
    simp only [clamp_min]
    rw [if_neg (not_le.mpr hpos)]
  · intro p mi m hmin hm hlt
    have h1 : m ≠ 0 ∧ step_floor p mi.price_step < m := ⟨ne_of_gt hm, hlt⟩
    rw [safe_round_price, hmin]
    simp only [clamp_min, if_pos h1, if_neg (not_le.mpr hm)]

/-- C7 (witness): positivity at the fallback input, the pure floor at price
5/2 with tick 1, and the clamp to minimum price 3 at price 1/2. -/
theorem C7_witness :
    (0 : ℚ) < safe_round_price (1 / 2) ⟨1, none⟩
      ∧ safe_round_price (5 / 2) ⟨1, none⟩ = step_floor (5 / 2) 1
      ∧ safe_round_price (1 / 2) ⟨1, some 3⟩ = 3 :=
  ⟨C7_safe_round_price_behavior.1 (1 / 2) ⟨1, none⟩,
   C7_safe_round_price_behavior.2.1 (5 / 2) ⟨1, none⟩ rfl
     (by norm_num [step_floor]),
   C7_safe_round_price_behavior.2.2 (1 / 2) ⟨1, some 3⟩ 3 rfl (by norm_num)
     (by norm_num [step_floor])⟩

/-- Helper for C8: unfolding one rejected placement attempt with retries
left. -/
theorem maker_buy_loop_reject_succ (resp : ℕ → MakerResp) (mi : MarketInfo) (amt : ℚ)
    (r attempt : ℕ) (px : ℚ) (h : resp attempt = MakerResp.postOnlyReject) :
    maker_buy_loop resp mi amt (r + 1) attempt px
      = (ProbeOrderEv.makerBuy amt px
          :: (maker_buy_loop resp mi amt r (attempt + 1) (safe_round_price (px - mi.price_step) mi)).1,
         (maker_buy_loop resp mi amt r (attempt + 1) (safe_round_price (px - mi.price_step) mi)).2) := by
  simp only [maker_buy_loop, h]

/-- Helper for C8: a rejected placement attempt with no retries left propagates
the error. -/
theorem maker_buy_loop_reject_zero (resp : ℕ → MakerResp) (mi : MarketInfo) (amt : ℚ)
    (attempt : ℕ) (px : ℚ) (h : resp attempt = MakerResp.postOnlyReject) :
    maker_buy_loop resp mi amt 0 attempt px = ([ProbeOrderEv.makerBuy amt px], Except.error ()) := by
  simp only [maker_buy_loop, h]

/-- Helper for C8: the placement loop submits at most retries + 1 orders, all
of them post-only maker buys. -/
theorem maker_buy_loop_trace (resp : ℕ → MakerResp) (mi : MarketInfo) (amt : ℚ) :
    ∀ (r attempt : ℕ) (px : ℚ),
      (maker_buy_loop resp mi amt r attempt px).1.length ≤ r + 1
        ∧ ∀ ev ∈ (maker_buy_loop resp mi amt r attempt px).1,
            ∃ a b, ev = ProbeOrderEv.makerBuy a b := by
  intro r
  induction r with
  | zero =>
    intro attempt px
    cases hr : resp attempt <;> simp [maker_buy_loop, hr]
  | succ n ih =>
    intro attempt px
    cases hr : resp attempt
    · simp [maker_buy_loop, hr]
    · rw [maker_buy_loop_reject_succ resp mi amt n attempt px hr]
      obtain ⟨h1, h2⟩ := ih (attempt + 1) (safe_round_price (px - mi.price_step) mi)
      constructor
      · simpa using Nat.succ_le_succ h1
      · intro ev hev
        rcases List.mem_cons.mp hev with he | he
        · exact ⟨amt, px, he⟩
        · exact h2 ev he
    · simp [maker_buy_loop, hr]

/-- Helper for C8: safe_round_price is the identity on a positive price that is
an integer multiple of the (positive) tick when no minimum price is defined. -/
theorem safe_round_price_aligned (mi : MarketInfo) (x : ℚ) (k : ℤ)
    (hmin : mi.min_price = none) (hs : 0 < mi.price_step) (hx : x = k * mi.price_step)
    (hpos : 0 < x) :
    safe_round_price x mi = x := by
  have hfl : step_floor x mi.price_step = x := by
    rw [step_floor, if_pos hs, hx, mul_div_cancel_right₀ _ (ne_of_gt hs), Int.floor_intCast]
  rw [safe_round_price, hmin]
  simp only [clamp_min, hfl]
  rw [if_neg (not_le.mpr hpos)]

/-- C8 (amended): the probe's buy placement submits at most 4 post-only maker
orders (the initial one plus a retry budget of 3) and never a taker order, and
when every attempt is rejected as would-be taker and no clamping interferes
(no minimum price, positive tick, tick-aligned start price staying positive)
the retry prices are exactly one tick lower each time and the exhausted budget
surfaces the rejection as an error.  With a minimum-price clamp the retry price
can fail to be one tick lower (see the counterexample). -/
theorem C8_maker_retry_budget :
    (∀ (resp : ℕ → MakerResp) (mi : MarketInfo) (amt desired : ℚ),
        (place_or_adjust_buy resp mi amt desired).1.length ≤ 4
          ∧ ∀ ev ∈ (place_or_adjust_buy resp mi amt desired).1,
              ∃ a b, ev = ProbeOrderEv.makerBuy a b)
      ∧ (∀ (resp : ℕ → MakerResp) (stp amt desired : ℚ) (k : ℤ),
          (∀ n, resp n = MakerResp.postOnlyReject) → 0 < stp → desired = k * stp →
          3 * stp < desired →
          place_or_adjust_buy resp ⟨stp, none⟩ amt desired
            = ([ProbeOrderEv.makerBuy amt desired,
                ProbeOrderEv.makerBuy amt (desired - stp),
                ProbeOrderEv.makerBuy amt (desired - stp - stp),
                ProbeOrderEv.makerBuy amt (desired - stp - stp - stp)], Except.error ())) := by
  constructor
  · intro resp mi amt desired
    exact maker_buy_loop_trace resp mi amt 3 0 (safe_round_price desired mi)
  · intro resp stp amt desired k hresp hs hk h3
    have e0 : safe_round_price desired ⟨stp, none⟩ = desired :=
      safe_round_price_aligned ⟨stp, none⟩ desired k rfl hs hk (by linarith)
    have e1 : safe_round_price (desired - stp) ⟨stp, none⟩ = desired - stp :=
      safe_round_price_aligned ⟨stp, none⟩ (desired - stp) (k - 1) rfl hs
        (by rw [hk]; push_cast; ring) (by linarith)
    have e2 : safe_round_price (desired - stp - stp) ⟨stp, none⟩ = desired - stp - stp :=
      safe_round_price_aligned ⟨stp, none⟩ (desired - stp - stp) (k - 2) rfl hs
        (by rw [hk]; push_cast; ring) (by linarith)
    have e3 : safe_round_price (desired - stp - stp - stp) ⟨stp, none⟩
        = desired - stp - stp - stp :=
      safe_round_price_aligned ⟨stp, none⟩ (desired - stp - stp - stp) (k - 3) rfl hs
        (by rw [hk]; push_cast; ring) (by linarith)
    rw [place_or_adjust_buy, e0]
    rw [maker_buy_loop_reject_succ resp ⟨stp, none⟩ amt 2 0 desired (hresp 0)]
    rw [show (⟨stp, none⟩ : MarketInfo).price_step = stp from rfl, e1]
    rw [maker_buy_loop_reject_succ resp ⟨stp, none⟩ amt 1 1 (desired - stp) (hresp 1)]
    rw [show (⟨stp, none⟩ : MarketInfo).price_step = stp from rfl, e2]
    rw [maker_buy_loop_reject_succ resp ⟨stp, none⟩ amt 0 2 (desired - stp - stp) (hresp 2)]
    rw [show (⟨stp, none⟩ : MarketInfo).price_step = stp from rfl, e3]
    rw [maker_buy_loop_reject_zero resp ⟨stp, none⟩ amt 3 (desired - stp - stp - stp) (hresp 3)]

/-- C8 (counterexample): with tick 1 and minimum price 10, a post-only
rejection at price 10 is retried at safe_round_price(10 − 1) = 10 — the same
price, not one tick lower — for all 3 retries, and the attempt then fails; so
the claim's "exactly one tick lower each time" does not hold universally. -/
theorem C8_counterexample :
    place_or_adjust_buy c8resp c8mi 5 10
      = ([ProbeOrderEv.makerBuy 5 10, ProbeOrderEv.makerBuy 5 10,
          ProbeOrderEv.makerBuy 5 10, ProbeOrderEv.makerBuy 5 10], Except.error ())
      ∧ (10 : ℚ) - c8mi.price_step ≠ 10 := by
  constructor
  · norm_num [place_or_adjust_buy, maker_buy_loop, c8resp, c8mi, safe_round_price, clamp_min,
      step_floor, py_or_default, max_def]
  · norm_num [c8mi]

/-- C8 (witness): the amended theorem at tick 1, start price 100, with every
attempt rejected: four maker buys at 100, 99, 98, 97 and then an error. -/
theorem C8_witness :
    place_or_adjust_buy c8resp ⟨1, none⟩ 2 100
      = ([ProbeOrderEv.makerBuy 2 100, ProbeOrderEv.makerBuy 2 99,
          ProbeOrderEv.makerBuy 2 98, ProbeOrderEv.makerBuy 2 97], Except.error ())
      ∧ (place_or_adjust_buy c8resp ⟨1, none⟩ 2 100).1.length ≤ 4 := by
  have h := C8_maker_retry_budget.2 c8resp 1 2 100 100 (fun n => rfl) (by norm_num)
    (by norm_num) (by norm_num)
  have h2 := (C8_maker_retry_budget.1 c8resp ⟨1, none⟩ 2 100).1
  norm_num at h
  exact ⟨h, h2⟩

/-- C9: in live3.py's exit section, whenever the exit decision fires, the
resulting state is flat (pos = none, amount = 0), a trade row is appended with
the equity adjusted by exactly that row's PnL, and the resulting state does not
depend on whether the reduce-only maker order or the market fallback succeed or
raise — both calls are wrapped in try/except-pass. -/
theorem C9_exit_resets_even_on_order_failures (cfg : Live3Cfg) (s : Live3State) (q : ExitQuotes)
    (mk mt : Bool) (p : Live3Pos) (hp : s.pos = some p)
    (htrig : exit_decision p.side q.bid q.ask p.tp_px p.sl_px cfg.tpTol cfg.slTol ≠ none) :
    (live3_exit_step cfg s q mk mt).1.pos = none
      ∧ (live3_exit_step cfg s q mk mt).1.amount = 0
      ∧ (∃ r : Live3Row, (live3_exit_step cfg s q mk mt).1.trades = s.trades ++ [r]
          ∧ (live3_exit_step cfg s q mk mt).1.equity = s.equity + r.pnl)
      ∧ (∀ mk2 mt2 : Bool, (live3_exit_step cfg s q mk2 mt2).1 = (live3_exit_step cfg s q mk mt).1) := by
  obtain ⟨reason, hdec⟩ :
      ∃ r, exit_decision p.side q.bid q.ask p.tp_px p.sl_px cfg.tpTol cfg.slTol = some r := by
    cases hd : exit_decision p.side q.bid q.ask p.tp_px p.sl_px cfg.tpTol cfg.slTol with
    | none => exact absurd hd htrig
    | some r => exact ⟨r, rfl⟩
  refine ⟨?_, ?_, ?_, ?_⟩
  · simp only [live3_exit_step, hp, hdec]
  · simp only [live3_exit_step, hp, hdec]
  · simp only [live3_exit_step, hp, hdec]
    exact ⟨_, rfl, rfl⟩
  · intro mk2 mt2
    simp only [live3_exit_step, hp, hdec]

/-- C9 (witness): the reset happens in the concrete stop-loss scenario c9state
with both order calls raising (makerOk = marketOk = false). -/
theorem C9_witness :
    (live3_exit_step c9cfg c9state c9quotes false false).1.pos = none
      ∧ (live3_exit_step c9cfg c9state c9quotes false false).1.amount = 0 :=
  ⟨(C9_exit_resets_even_on_order_failures c9cfg c9state c9quotes false false c9pos rfl
      (by norm_num [exit_decision, hit_sl_check, hit_tp_check, c9pos, c9cfg, c9quotes] ; exact Option.some_ne_none _)).1,
   (C9_exit_resets_even_on_order_failures c9cfg c9state c9quotes false false c9pos rfl
      (by norm_num [exit_decision, hit_sl_check, hit_tp_check, c9pos, c9cfg, c9quotes] ; exact Option.some_ne_none _)).2.1⟩

/-- Helper for C10: the entry block never changes the consecutive-loss
counter. -/
theorem paper_entry_keeps_consec (s : PaperState) (i : PaperInput) :
    (paper_entry_step s i).1.consec_losses = s.consec_losses := by
  rw [paper_entry_step]
  split <;> rfl

/-- Helper for C10: the entry block emits either no event or exactly the
entered event. -/
theorem paper_entry_events (s : PaperState) (i : PaperInput) :
    (paper_entry_step s i).2 = [] ∨ (paper_entry_step s i).2 = [PaperEvent.entered] := by
  rw [paper_entry_step]
  split
  · exact Or.inr rfl
  · exact Or.inl rfl

/-- Helper for C10: an entered event requires the consecutive-loss counter to
be strictly below 3 at the entry check. -/
theorem paper_entry_entered_needs_room (s : PaperState) (i : PaperInput)
    (h : PaperEvent.entered ∈ (paper_entry_step s i).2) : s.consec_losses < 3 := by
  rw [paper_entry_step] at h
  by_cases hg : s.in_pos = false ∧ s.consec_losses < 3 ∧ i.ok_spread = true ∧ i.ok_depth = true
      ∧ i.long_signal = true ∧ 0 < i.atr
  · exact hg.2.1
  · rw [if_neg hg] at h
    simp at h

/-- Helper for C10: the exit block never emits an entered event. -/
theorem paper_exit_no_entered (s : PaperState) (i : PaperInput) :
    PaperEvent.entered ∉ (paper_exit_step s i).2 := by
  rw [paper_exit_step]
  by_cases h1 : s.in_pos = true
  · rw [if_pos h1]
    by_cases h2 : i.price ≤ s.sl
    · rw [if_pos h2]
      intro hmem
      simp only [List.mem_singleton] at hmem
      exact PaperEvent.noConfusion hmem
    · rw [if_neg h2]
      by_cases h3 : i.price ≥ s.tp
      · rw [if_pos h3]
        intro hmem
        simp only [List.mem_singleton] at hmem
        exact PaperEvent.noConfusion hmem
      · rw [if_neg h3]
        exact List.not_mem_nil _
  · rw [if_neg h1]
    exact List.not_mem_nil _

/-- Helper for C10: a stop-loss exit increments the consecutive-loss
counter. -/
theorem paper_exit_consec_of_exitSL (s : PaperState) (i : PaperInput)
    (h : PaperEvent.exitSL ∈ (paper_exit_step s i).2) :
    (paper_exit_step s i).1.consec_losses = s.consec_losses + 1 := by
  rw [paper_exit_step] at h ⊢
  by_cases h1 : s.in_pos = true
  · rw [if_pos h1] at h ⊢
    by_cases h2 : i.price ≤ s.sl
    · rw [if_pos h2]
    · rw [if_neg h2] at h
      by_cases h3 : i.price ≥ s.tp
      · rw [if_pos h3] at h
        simp only [List.mem_singleton] at h
        exact PaperEvent.noConfusion h
      · rw [if_neg h3] at h
        exact absurd h (List.not_mem_nil _)
  · rw [if_neg h1] at h
    exact absurd h (List.not_mem_nil _)

/-- Helper for C10: a take-profit exit resets the consecutive-loss counter to
0. -/
theorem paper_exit_consec_of_exitTP (s : PaperState) (i : PaperInput)
    (h : PaperEvent.exitTP ∈ (paper_exit_step s i).2) :
    (paper_exit_step s i).1.consec_losses = 0 := by
  rw [paper_exit_step] at h ⊢
  by_cases h1 : s.in_pos = true
  · rw [if_pos h1] at h ⊢
    by_cases h2 : i.price ≤ s.sl
    · rw [if_pos h2] at h
      simp only [List.mem_singleton] at h
      exact PaperEvent.noConfusion h
    · rw [if_neg h2] at h ⊢
      by_cases h3 : i.price ≥ s.tp
      · rw [if_pos h3]
      · rw [if_neg h3] at h
        exact absurd h (List.not_mem_nil _)
  · rw [if_neg h1] at h
    exact absurd h (List.not_mem_nil _)

/-- Helper for C10: a full cycle opens a position only when the post-day-reset
consecutive-loss counter is below 3. -/
theorem paper_cycle_entered_needs_room (s : PaperState) (i : PaperInput)
    (h : PaperEvent.entered ∈ (paper_cycle s i).2) :
    (paper_day_reset s i).consec_losses < 3 := by
  simp only [paper_cycle] at h
  by_cases hh : paper_halt_check (paper_day_reset s i).equity
      (paper_day_reset s i).start_equity_today (3 / 100) = true
  · rw [if_pos hh] at h
    exact absurd h (List.not_mem_nil _)
  · rw [if_neg hh] at h
    rcases List.mem_append.mp h with hL | hR
    · exact paper_entry_entered_needs_room _ _ hL
    · exact absurd hR (paper_exit_no_entered _ _)

/-- Helper for C10: a cycle with a stop-loss exit ends with the counter
incremented relative to its post-day-reset value. -/
theorem paper_cycle_exitSL_increments (s : PaperState) (i : PaperInput)
    (h : PaperEvent.exitSL ∈ (paper_cycle s i).2) :
    (paper_cycle s i).1.consec_losses = (paper_day_reset s i).consec_losses + 1 := by
  simp only [paper_cycle] at h ⊢
  by_cases hh : paper_halt_check (paper_day_reset s i).equity
      (paper_day_reset s i).start_equity_today (3 / 100) = true
  · rw [if_pos hh] at h
    exact absurd h (List.not_mem_nil _)
  · rw [if_neg hh] at h ⊢
    have hL : PaperEvent.exitSL ∉ (paper_entry_step (paper_day_reset s i) i).2 := by
      rcases paper_entry_events (paper_day_reset s i) i with he | he <;> rw [he]
      · exact List.not_mem_nil _
      · intro hmem
        simp only [List.mem_singleton] at hmem
        exact PaperEvent.noConfusion hmem
    have hR : PaperEvent.exitSL ∈ (paper_exit_step (paper_entry_step (paper_day_reset s i) i).1 i).2 := by
      rcases List.mem_append.mp h with h1 | h1
      · exact absurd h1 hL
      · exact h1
    rw [paper_exit_consec_of_exitSL _ _ hR, paper_entry_keeps_consec]

/-- Helper for C10: a cycle with a take-profit exit ends with the counter at
0. -/
theorem paper_cycle_exitTP_resets (s : PaperState) (i : PaperInput)
    (h : PaperEvent.exitTP ∈ (paper_cycle s i).2) :
    (paper_cycle s i).1.consec_losses = 0 := by
  simp only [paper_cycle] at h ⊢
  by_cases hh : paper_halt_check (paper_day_reset s i).equity
      (paper_day_reset s i).start_equity_today (3 / 100) = true
  · rw [if_pos hh] at h
    exact absurd h (List.not_mem_nil _)
  · rw [if_neg hh] at h ⊢
    have hL : PaperEvent.exitTP ∉ (paper_entry_step (paper_day_reset s i) i).2 := by
      rcases paper_entry_events (paper_day_reset s i) i with he | he <;> rw [he]
      · exact List.not_mem_nil _
      · intro hmem
        simp only [List.mem_singleton] at hmem
        exact PaperEvent.noConfusion hmem
    have hR : PaperEvent.exitTP ∈ (paper_exit_step (paper_entry_step (paper_day_reset s i) i).1 i).2 := by
      rcases List.mem_append.mp h with h1 | h1
      · exact absurd h1 hL
      · exact h1
    exact paper_exit_consec_of_exitTP _ _ hR

/-- Helper for C10: a flat state with counter at least 3 is frozen by any
no-day-change cycle: no entry can pass the counter gate and no exit can run. -/
theorem paper_cycle_locked (s : PaperState) (i : PaperInput)
    (hpos : s.in_pos = false) (hc : 3 ≤ s.consec_losses) (hday : i.dayChanged = false) :
    paper_cycle s i = (s, []) := by
  have hres : paper_day_reset s i = s := by simp [paper_day_reset, hday]
  simp only [paper_cycle, hres]
  by_cases hh : paper_halt_check s.equity s.start_equity_today (3 / 100) = true
  · rw [if_pos hh]
  · rw [if_neg hh]
    have hentry : paper_entry_step s i = (s, []) := by
      rw [paper_entry_step, if_neg]
      rintro ⟨-, h2, -⟩
      omega
    have hexit : paper_exit_step s i = (s, []) := by
      rw [paper_exit_step, hpos]
      simp
    simp [hentry, hexit]

/-- Helper for C10: the freeze extends over any run of no-day-change cycles. -/
theorem paper_run_locked (s : PaperState) (inputs : List PaperInput)
    (hpos : s.in_pos = false) (hc : 3 ≤ s.consec_losses)
    (hday : ∀ i ∈ inputs, i.dayChanged = false) :
    paper_run s inputs = (s, []) := by
  induction inputs with
  | nil => rfl
  | cons i rest ih =>
    have h1 : paper_cycle s i = (s, []) :=
      paper_cycle_locked s i hpos hc (hday i (List.mem_cons_self i rest))
    have h2 : paper_run s rest = (s, []) :=
      ih (fun j hj => hday j (List.mem_cons_of_mem i hj))
    simp [paper_run, h1, h2]

/-- C10: in paper.py, every entry requires the consecutive-loss counter to be
strictly below 3 at the entry check; every stop-loss exit increments the
counter and every take-profit exit resets it to 0; a UTC day change resets it
to 0; and from any flat state with counter at least 3, no entry is ever opened
over any run of cycles without a day change (a take-profit exit cannot occur
there either, since no position can be opened). -/
theorem C10_consec_loss_lockout :
    (∀ (s : PaperState) (i : PaperInput), PaperEvent.entered ∈ (paper_cycle s i).2 →
        (paper_day_reset s i).consec_losses < 3)
      ∧ (∀ (s : PaperState) (i : PaperInput), PaperEvent.exitSL ∈ (paper_cycle s i).2 →
          (paper_cycle s i).1.consec_losses = (paper_day_reset s i).consec_losses + 1)
      ∧ (∀ (s : PaperState) (i : PaperInput), PaperEvent.exitTP ∈ (paper_cycle s i).2 →
          (paper_cycle s i).1.consec_losses = 0)
      ∧ (∀ (s : PaperState) (i : PaperInput), i.dayChanged = true →
          (paper_day_reset s i).consec_losses = 0)
      ∧ (∀ (s : PaperState) (inputs : List PaperInput), s.in_pos = false →
          3 ≤ s.consec_losses → (∀ i ∈ inputs, i.dayChanged = false) →
          PaperEvent.entered ∉ (paper_run s inputs).2) :=
  ⟨paper_cycle_entered_needs_room, paper_cycle_exitSL_increments, paper_cycle_exitTP_resets,
   fun s i h => by simp [paper_day_reset, h],
   fun s inputs hpos hc hday => by
     rw [paper_run_locked s inputs hpos hc hday]
     exact List.not_mem_nil _⟩

/-- C10 (witness): from the flat locked state c10State, two cycles with a
firing signal and passing filters open no position, and a day-change input
resets the counter. -/
theorem C10_witness :
    PaperEvent.entered ∉ (paper_run c10State [c10Input, c10Input]).2
      ∧ (paper_day_reset c10State c10DayInput).consec_losses = 0 :=
  ⟨C10_consec_loss_lockout.2.2.2.2 c10State [c10Input, c10Input] rfl (le_refl 3)
      (by intro i hi
          rcases List.mem_cons.mp hi with h | h
          · rw [h]; rfl
          · rw [List.mem_singleton] at h; rw [h]; rfl),
   C10_consec_loss_lockout.2.2.2.1 c10State c10DayInput rfl⟩

end FDT
